import Mathlib

/-!
A shallow embedding of the snap-dnd drag-and-drop core, translated from the
TypeScript sources: `DragState` (src/core/DragState.ts), `DropZone`
(src/core/DropZone.ts), `RAFThrottle` (src/utils/RAFThrottle.ts), the
`DragEngine` move pipeline (src/core/DragEngine.ts), and the index computation of the
`Sortable` plugin.  JS numbers are modelled as rationals; DOM
elements are modelled by abstract identities; event emission is modelled by
returning the list of emitted notifications (each carrying a snapshot of the
session object at the moment of emission).
-/

namespace Snap

/-- Abstract identity of a DOM element. -/
abbrev Elem := Nat

/-- A 2-D point (`Point` in src/types). -/
structure Point where
  x : ℚ
  y : ℚ
  deriving DecidableEq, Repr, Inhabited

/-- Phase of a drag session (`DragPhase` in src/types). -/
inductive DragPhase
  | dragging
  | dropping
  | cancelled
  deriving DecidableEq, Repr

/-- Contents of a `SnapDataTransfer` (src/utils/DataTransfer.ts): a JS `Map`
from type strings to values, kept in insertion order. -/
abbrev DataMap := List (String × String)

/-- `SnapDataTransfer.setData`: JS `Map.set` replaces an existing key in
place and otherwise appends. -/
def setData (m : DataMap) (k v : String) : DataMap :=
  if m.any (fun p => p.1 == k) then
    m.map (fun p => if p.1 == k then (k, v) else p)
  else
    m ++ [(k, v)]

/-- A drag session (`DragSession` in src/types). -/
structure DragSession where
  id : String
  element : Elem
  origin : Point
  current : Point
  delta : Point
  data : DataMap
  dropZone : Option Elem
  phase : DragPhase
  deriving DecidableEq, Repr

/-- A notification emitted by `DragState` (the `StateEvents` interface in
DragState.ts), carrying the session snapshot seen by subscribers. -/
inductive StateEv
  | dragstart (session : DragSession)
  | dragmove (session : DragSession)
  | dragend (session : DragSession)
  | dropzoneenter (session : DragSession)
  | dropzoneleave (session : DragSession)
  | drop (session : DragSession)
  deriving DecidableEq, Repr

/-- The mutable fields of the `DragState` class. -/
structure DragState where
  _session : Option DragSession := none
  _idCounter : Nat := 0
  deriving DecidableEq, Repr

/-- `DragState.cancelDrag` (DragState.ts:151-162): sets the phase to
`cancelled`, clears the drop zone, emits `dragend`, clears the session. -/
def cancelDrag (st : DragState) : DragState × List StateEv × Option DragSession :=
  match st._session with
  | none => (st, [], none)
  | some s =>
      let s := { s with phase := DragPhase.cancelled, dropZone := none }
      ({ st with _session := none }, [StateEv.dragend s], some s)

/-- `DragState.startDrag` (DragState.ts:60-90): force-cancels any existing
session, then creates and announces the new one. -/
def startDrag (st : DragState) (element : Elem) (origin : Point)
    (initialData : DataMap) : DragState × List StateEv × DragSession :=
  let r0 :=
    match st._session with
    | some _ => (let r := cancelDrag st; (r.1, r.2.1))
    | none => (st, ([] : List StateEv))
  let st := r0.1
  let data := initialData.foldl (fun m kv => setData m kv.1 kv.2) []
  let counter := st._idCounter + 1
  let s : DragSession :=
    { id := "drag-" ++ toString counter
      element := element
      origin := origin
      current := origin
      delta := ⟨0, 0⟩
      data := data
      dropZone := none
      phase := DragPhase.dragging }
  ({ st with _session := some s, _idCounter := counter },
   r0.2 ++ [StateEv.dragstart s], s)

/-- `DragState.updatePosition` (DragState.ts:95-104). -/
def updatePosition (st : DragState) (point : Point) : DragState × List StateEv :=
  match st._session with
  | none => (st, [])
  | some s =>
      if s.phase ≠ DragPhase.dragging then (st, [])
      else
        let s := { s with
          current := point
          delta := ⟨point.x - s.origin.x, point.y - s.origin.y⟩ }
        ({ st with _session := some s }, [StateEv.dragmove s])

/-- `DragState.setDropTarget` (DragState.ts:109-126): no-op without a session
or when the target is unchanged; otherwise emits `dropzoneleave` for a
previous target (after nulling the field) and then `dropzoneenter` for a new
non-null target. -/
def setDropTarget (st : DragState) (zone : Option Elem) : DragState × List StateEv :=
  match st._session with
  | none => (st, [])
  | some s =>
      let previous := s.dropZone
      if previous = zone then (st, [])
      else
        let r1 :=
          match previous with
          | some _ => (let t := { s with dropZone := none }; (t, [StateEv.dropzoneleave t]))
          | none => (s, ([] : List StateEv))
        let r2 :=
          match zone with
          | some z => (let t := { r1.1 with dropZone := some z }; (t, [StateEv.dropzoneenter t]))
          | none => (r1.1, ([] : List StateEv))
        ({ st with _session := some r2.1 }, r1.2 ++ r2.2)

/-- `DragState.endDrag` (DragState.ts:131-146): sets phase to `dropping`,
emits `drop` when over a drop zone, always emits `dragend`, clears the
session reference and returns the terminal session. -/
def endDrag (st : DragState) : DragState × List StateEv × Option DragSession :=
  match st._session with
  | none => (st, [], none)
  | some s =>
      let s := { s with phase := DragPhase.dropping }
      let dropEvs : List StateEv :=
        match s.dropZone with
        | some _ => [StateEv.drop s]
        | none => []
      ({ st with _session := none }, dropEvs ++ [StateEv.dragend s], some s)

/-- The mutable fields of `RAFThrottle` (src/utils/RAFThrottle.ts); the
callback is modelled by returning the list of delivered values. -/
structure RAFThrottle (T : Type) where
  _rafId : Option Nat := none
  _pending : Option T := none

/-- `RAFThrottle.queue` (RAFThrottle.ts:18-24); `newId` stands for the handle
returned by `requestAnimationFrame`. -/
def RAFThrottle.queue (st : RAFThrottle T) (data : T) (newId : Nat) : RAFThrottle T :=
  let st := { st with _pending := some data }
  match st._rafId with
  | none => { st with _rafId := some newId }
  | some _ => st

/-- `RAFThrottle.cancel` (RAFThrottle.ts:29-35): clears the scheduled frame
and the pending value. -/
def RAFThrottle.cancel (_st : RAFThrottle T) : RAFThrottle T :=
  { _rafId := none, _pending := none }

/-- `RAFThrottle.flush` (RAFThrottle.ts:40-46): if a value is pending, cancel
and deliver it.  Returns the new state and the delivered values. -/
def RAFThrottle.flush (st : RAFThrottle T) : RAFThrottle T × List T :=
  match st._pending with
  | some d => (RAFThrottle.cancel { st with _pending := some d }, [d])
  | none => (st, [])

/-- `RAFThrottle._process` (RAFThrottle.ts:55-62): the scheduled frame
callback. -/
def RAFThrottle.process (st : RAFThrottle T) : RAFThrottle T × List T :=
  let st := { st with _rafId := none }
  match st._pending with
  | some d => ({ st with _pending := none }, [d])
  | none => (st, [])

/-- A cached `DOMRect` as served by BoundsCache. -/
structure Rect where
  top : ℚ
  left : ℚ
  width : ℚ
  height : ℚ
  deriving DecidableEq, Repr, Inhabited

/-- `DOMRect.right`. -/
def Rect.right (r : Rect) : ℚ := r.left + r.width

/-- `DOMRect.bottom`. -/
def Rect.bottom (r : Rect) : ℚ := r.top + r.height

/-- `rectCenter` (src/utils/ObjectPool.ts:203-208). -/
def rectCenter (r : Rect) : Point := ⟨r.left + r.width / 2, r.top + r.height / 2⟩

/-- `pointInRect` (src/utils/ObjectPool.ts:182-186). -/
def pointInRect (x y : ℚ) (r : Rect) : Bool :=
  decide (r.left ≤ x) && decide (x ≤ r.right) && decide (r.top ≤ y) && decide (y ≤ r.bottom)

/-- The orientation test shared by `DropZone.getInsertionIndex`
(DropZone.ts:114) and `Sortable._onDragMove`: the list is vertical when the
vertical distance between the first and last rect `top` coordinates
exceeds the horizontal distance between their `left` coordinates. -/
def isVerticalOf (firstRect lastRect : Rect) : Bool :=
  decide (|lastRect.top - firstRect.top| > |lastRect.left - firstRect.left|)

/-- The per-item test of the insertion scan (DropZone.ts:120-124): a vertical
list compares the cursor y with the y of the item center, a horizontal list
compares x. -/
def insertionTest (isVert : Bool) (x y : ℚ) (r : Rect) : Bool :=
  if isVert then decide (y < (rectCenter r).y) else decide (x < (rectCenter r).x)

/-- The body of `DropZone.getInsertionIndex` (DropZone.ts:109-127) on the
already-filtered candidate list: first index whose center test fires, or the
list length when none does. -/
def getInsertionIndexCore (x y : ℚ) (items : List Rect) : Nat :=
  match items with
  | [] => 0
  | r0 :: rest =>
      let lastR := (r0 :: rest).getLast (List.cons_ne_nil r0 rest)
      (r0 :: rest).findIdx (insertionTest (isVerticalOf r0 lastR) x y)

/-- `DropZone.getInsertionIndex` (DropZone.ts:99-128) including the filter
that drops `excludeElement` from the queried items. -/
def getInsertionIndex (x y : ℚ) (allItems : List (Elem × Rect))
    (excludeElement : Option Elem) : Nat :=
  getInsertionIndexCore x y
    ((allItems.filter (fun it => some it.1 ≠ excludeElement)).map Prod.snd)

/-- Axis constraint option (`Axis` in src/types). -/
inductive Axis
  | x
  | y
  | both
  deriving DecidableEq, Repr

/-- `DragEngine._applyAxisConstraint` (DragEngine.ts:253-261). -/
def applyAxisConstraint (position origin : Point) (axis : Axis) : Point :=
  match axis with
  | Axis.x => ⟨position.x, origin.y⟩
  | Axis.y => ⟨origin.x, position.y⟩
  | Axis.both => position

/-- JS `Math.round`: nearest integer, ties rounded toward positive
infinity. -/
def jsRound (q : ℚ) : ℤ := (q + 1/2).floor

/-- `DragEngine._applyGridSnap` (DragEngine.ts:263-268). -/
def applyGridSnap (position : Point) (grid : Point) : Point :=
  ⟨(jsRound (position.x / grid.x) : ℚ) * grid.x,
   (jsRound (position.y / grid.y) : ℚ) * grid.y⟩

/-- The position pipeline of `DragEngine._onPointerMove`
(DragEngine.ts:172-190): the item axis (falling back to the option axis,
then `both`) constrains the raw pointer position, then the optional grid
snap is applied; the result is the point passed to `updatePosition`. -/
def onPointerMovePosition (itemAxis optionsAxis : Option Axis) (grid : Option Point)
    (origin rawPosition : Point) : Point :=
  let axis := itemAxis.getD (optionsAxis.getD Axis.both)
  let position :=
    if axis ≠ Axis.both then applyAxisConstraint rawPosition origin axis else rawPosition
  match grid with
  | some g => applyGridSnap position g
  | none => position

/-- A user-facing callback invocation made by `DragEngine._updateDropZone`
(DragEngine.ts:286-303). -/
inductive EngineEv
  | leaveCb (element : Elem) (dropZone : Elem)
  | enterCb (element : Elem) (dropZone : Elem) (position : Point)
  deriving DecidableEq, Repr

/-- The hit-test loop of `_updateDropZone` (DragEngine.ts:274-280): the first
registered zone containing the point. -/
def findZoneAt (dropZones : List (Elem × Rect)) (pos : Point) : Option Elem :=
  (dropZones.find? (fun zr => pointInRect pos.x pos.y zr.2)).map Prod.fst

/-- `DragEngine._updateDropZone` (DragEngine.ts:270-304): when the zone under
the pointer changed, fires the user `onDropZoneLeave` callback with the
previous zone (captured before the state update), performs
`setDropTarget`, then fires `onDropZoneEnter` for a new zone.  Returns the
new state, the state notifications and the callback invocations. -/
def updateDropZone (st : DragState) (dropZones : List (Elem × Rect)) (position : Point) :
    DragState × List StateEv × List EngineEv :=
  let foundZone := findZoneAt dropZones position
  match st._session with
  | none => (st, [], [])
  | some session =>
      if foundZone ≠ session.dropZone then
        let leaveEvs : List EngineEv :=
          match session.dropZone with
          | some dz => [EngineEv.leaveCb session.element dz]
          | none => []
        let r := setDropTarget st foundZone
        let enterEvs : List EngineEv :=
          match foundZone with
          | some fz => [EngineEv.enterCb session.element fz position]
          | none => []
        (r.1, r.2, leaveEvs ++ enterEvs)
      else (st, [], [])

/-- The candidate scan of `Sortable._onDragMove` (src/plugins/Sortable.ts:
126-142): identical shape to the DropZone scan. -/
def sortableScan (isVert : Bool) (x y : ℚ) (items : List Rect) : Nat :=
  items.findIdx (insertionTest isVert x y)

/-- The index computation of `Sortable._onDragMove`
(src/plugins/Sortable.ts:102-153) on the filtered candidate rects: an empty
candidate list yields index 0; otherwise the scan result is bumped by one
when it lands after the original index of the dragged item. -/
def onDragMoveIndex (x y : ℚ) (items : List Rect) (originalIndex : ℤ) : ℤ :=
  match items with
  | [] => 0
  | r0 :: rest =>
      let lastR := (r0 :: rest).getLast (List.cons_ne_nil r0 rest)
      let newIndex : ℤ := sortableScan (isVerticalOf r0 lastR) x y (r0 :: rest)
      if newIndex > originalIndex then newIndex + 1 else newIndex

/-- Orientation rule as the spec words it: spans between the first and last
candidate CENTER points.  Modelled from the spec for comparison with
`isVerticalOf`; the source compares `top`/`left` corners instead. -/
def isVerticalSpecRule (firstRect lastRect : Rect) : Bool :=
  decide (|(rectCenter lastRect).y - (rectCenter firstRect).y| >
          |(rectCenter lastRect).x - (rectCenter firstRect).x|)

/-! ### Concrete fixtures shared by the witnesses -/

/-- A concrete active session used by the concrete-instance theorems. -/
def exSession : DragSession :=
  { id := "drag-1", element := 0, origin := ⟨0, 0⟩, current := ⟨1, 2⟩,
    delta := ⟨1, 2⟩, data := [], dropZone := some 7, phase := DragPhase.dragging }

/-- A concrete `DragState` holding `exSession`. -/
def exState : DragState := { _session := some exSession, _idCounter := 1 }

/-- The three-sibling scenario of C4: vertical centers at 10, 50 and 90. -/
def exItems : List Rect := [⟨10, 0, 0, 0⟩, ⟨50, 0, 0, 0⟩, ⟨90, 0, 0, 0⟩]

/-! ### Claims -/

/-- C3: for the frame-synchronized coalescer (`RAFThrottle`), the sequence
`queue(a); queue(b); flush()` delivers exactly `b` to the callback — never
`a`, never twice — and afterwards neither a pending value nor a scheduled
frame remains. -/
theorem rafThrottle_coalesces (T : Type) (st : RAFThrottle T) (a b : T) (i j : Nat) :
    ((st.queue a i).queue b j).flush =
      ({ _rafId := none, _pending := none }, [b]) := by
  cases h : st._rafId <;>
    simp [RAFThrottle.queue, RAFThrottle.flush, RAFThrottle.cancel, h]

/-- C1: a `startDrag` issued while a session is active force-cancels the
prior session: it emits exactly one `dragend` carrying the old session
(phase `cancelled`, drop zone cleared) strictly before the `dragstart` of
the new session, and afterwards the new session is the only active one. -/
theorem startDrag_forceCancels (st : DragState) (e : Elem) (o : Point) (d : DataMap)
    (s : DragSession) (h : st._session = some s) :
    (startDrag st e o d).2.1 =
      [StateEv.dragend { s with phase := DragPhase.cancelled, dropZone := none },
       StateEv.dragstart (startDrag st e o d).2.2] ∧
    (startDrag st e o d).1._session = some (startDrag st e o d).2.2 ∧
    (startDrag st e o d).2.2.phase = DragPhase.dragging := by
  simp [startDrag, cancelDrag, h]

/-- Witness for C1 at a concrete state with an active session. -/
theorem startDrag_forceCancels_witness :
    (startDrag exState 1 ⟨3, 4⟩ []).2.1 =
      [StateEv.dragend { exSession with phase := DragPhase.cancelled, dropZone := none },
       StateEv.dragstart (startDrag exState 1 ⟨3, 4⟩ []).2.2] ∧
    (startDrag exState 1 ⟨3, 4⟩ []).1._session = some (startDrag exState 1 ⟨3, 4⟩ []).2.2 ∧
    (startDrag exState 1 ⟨3, 4⟩ []).2.2.phase = DragPhase.dragging :=
  startDrag_forceCancels exState 1 ⟨3, 4⟩ [] exSession rfl

/-- C2: `endDrag` with an active session sets the phase to `dropping`, emits
`drop` if and only if the drop target is non-null, then exactly one
`dragend`, clears the session reference and returns the terminal session;
with no active session it returns `none` and emits nothing. -/
theorem endDrag_spec (st : DragState) :
    (∀ s, st._session = some s →
      (endDrag st).2.1 =
        (if s.dropZone.isSome
          then [StateEv.drop { s with phase := DragPhase.dropping }] else [])
          ++ [StateEv.dragend { s with phase := DragPhase.dropping }] ∧
      (endDrag st).1._session = none ∧
      (endDrag st).2.2 = some { s with phase := DragPhase.dropping }) ∧
    (st._session = none → endDrag st = (st, [], none)) := by
  constructor
  · intro s h
    cases hz : s.dropZone <;> simp [endDrag, h, hz]
  · intro h
    simp [endDrag, h]

/-- Witness for C2 at a concrete state whose session has a drop target. -/
theorem endDrag_spec_witness :
    (endDrag exState).2.1 =
      (if exSession.dropZone.isSome
        then [StateEv.drop { exSession with phase := DragPhase.dropping }] else [])
        ++ [StateEv.dragend { exSession with phase := DragPhase.dropping }] ∧
    (endDrag exState).1._session = none ∧
    (endDrag exState).2.2 = some { exSession with phase := DragPhase.dropping } :=
  (endDrag_spec exState).1 exSession rfl

/-- C5: `setDropTarget` is a no-op (no mutation, no notification) when there
is no session or when the target equals the current one; replacing a
non-null target with a different non-null target in one call emits
`dropzoneleave` for the previous target strictly before `dropzoneenter` for
the new one, never coalescing the pair. -/
theorem setDropTarget_spec :
    (∀ st z, st._session = none → setDropTarget st z = (st, [])) ∧
    (∀ st s, st._session = some s → setDropTarget st s.dropZone = (st, [])) ∧
    (∀ st s p z, st._session = some s → s.dropZone = some p → p ≠ z →
      (setDropTarget st (some z)).2 =
        [StateEv.dropzoneleave { s with dropZone := none },
         StateEv.dropzoneenter { s with dropZone := some z }]) := by
  refine ⟨fun st z h => by simp [setDropTarget, h],
          fun st s h => by simp [setDropTarget, h],
          fun st s p z h hp hne => ?_⟩
  simp [setDropTarget, h, hp, hne]

/-- Witness for C5: the unchanged-target no-op and a 7-to-9 target change at
a concrete state. -/
theorem setDropTarget_spec_witness :
    setDropTarget exState exSession.dropZone = (exState, []) ∧
    (setDropTarget exState (some 9)).2 =
      [StateEv.dropzoneleave { exSession with dropZone := none },
       StateEv.dropzoneenter { exSession with dropZone := some 9 }] :=
  ⟨setDropTarget_spec.2.1 exState exSession rfl,
   setDropTarget_spec.2.2 exState exSession 7 9 rfl rfl (by decide)⟩

/-- C10: every `dropzoneleave` notification emitted by `setDropTarget`
carries a session whose `dropZone` field is already `none`, so a state
subscriber cannot read the departed zone from the payload; the engine-level
`onDropZoneLeave` callback, which captures the previous zone before calling
`setDropTarget`, is the one that receives the departed zone. -/
theorem dropzoneleave_payload_null :
    (∀ st z s, StateEv.dropzoneleave s ∈ (setDropTarget st z).2 → s.dropZone = none) ∧
    (∀ st zones pos s p, st._session = some s → s.dropZone = some p →
      findZoneAt zones pos ≠ some p →
      EngineEv.leaveCb s.element p ∈ (updateDropZone st zones pos).2.2) := by
  constructor
  · intro st z s hmem
    cases hs : st._session with
    | none => simp [setDropTarget, hs] at hmem
    | some s0 =>
      simp only [setDropTarget, hs] at hmem
      split at hmem
      · simp at hmem
      · rename_i hcond
        cases hp : s0.dropZone <;> cases hz : z <;> simp_all
  · intro st zones pos s p hs hp hne
    simp [updateDropZone, hs, hp, hne]

/-- Witness for C10: a concrete leave notification and a concrete engine
callback when the pointer leaves zone 7. -/
theorem dropzoneleave_payload_null_witness :
    ({ exSession with dropZone := none } : DragSession).dropZone = none ∧
    EngineEv.leaveCb exSession.element 7 ∈ (updateDropZone exState [] ⟨0, 0⟩).2.2 :=
  ⟨dropzoneleave_payload_null.1 exState none { exSession with dropZone := none } (by decide),
   dropzoneleave_payload_null.2 exState [] ⟨0, 0⟩ exSession 7 rfl rfl (by decide)⟩

/-- C6: on every processed move the grid snap `round(value/cell)*cell` is
computed independently per axis on the axis-constrained point (i.e. it is
applied after the axis constraint); in particular with origin (0,0), grid
cell (20,20) and a raw move to (27,34) the point handed to
`updatePosition` is (20,40). -/
theorem gridSnap_after_axisConstraint :
    (∀ ia oa g origin p, onPointerMovePosition ia oa (some g) origin p =
      applyGridSnap
        (let axis := ia.getD (oa.getD Axis.both);
         if axis ≠ Axis.both then applyAxisConstraint p origin axis else p) g) ∧
    (∀ p g, applyGridSnap p g =
      ⟨(jsRound (p.x / g.x) : ℚ) * g.x, (jsRound (p.y / g.y) : ℚ) * g.y⟩) ∧
    onPointerMovePosition none none (some ⟨20, 20⟩) ⟨0, 0⟩ ⟨27, 34⟩ = ⟨20, 40⟩ := by
  refine ⟨fun ia oa g origin p => rfl, fun p g => rfl, ?_⟩
  norm_num [onPointerMovePosition, applyAxisConstraint, applyGridSnap, jsRound, Rat.floor]

/-- C9: the index the Sortable plugin reports for a move equals the
candidate-scan result incremented by exactly 1 when and only when the
scanned slot lies numerically after the original index of the dragged item. -/
theorem sortable_originalIndex_adjustment (x y : ℚ) (r0 : Rect) (rest : List Rect)
    (originalIndex : ℤ) :
    onDragMoveIndex x y (r0 :: rest) originalIndex =
      (sortableScan (isVerticalOf r0 ((r0 :: rest).getLast (List.cons_ne_nil r0 rest)))
          x y (r0 :: rest) : ℤ) +
        (if originalIndex <
            (sortableScan (isVerticalOf r0 ((r0 :: rest).getLast (List.cons_ne_nil r0 rest)))
              x y (r0 :: rest) : ℤ)
          then 1 else 0) := by
  simp only [onDragMoveIndex]
  split_ifs <;> omega

/-- C8 counterexample: with a first candidate of zero size at the origin and
a last candidate at top 1, left 2, width 0, height 10, the center-point
rule of the spec calls the list vertical while the corner rule of the code
 calls it horizontal, and the scan at cursor (1,10) returns the
horizontal answer 1 instead of the vertical answer 2. -/
theorem orientation_centerRule_counterexample :
    isVerticalSpecRule ⟨0, 0, 0, 0⟩ ⟨1, 2, 0, 10⟩ = true ∧
    isVerticalOf ⟨0, 0, 0, 0⟩ ⟨1, 2, 0, 10⟩ = false ∧
    getInsertionIndexCore 1 10 [⟨0, 0, 0, 0⟩, ⟨1, 2, 0, 10⟩] = 1 ∧
    List.findIdx (insertionTest true 1 10) [⟨0, 0, 0, 0⟩, ⟨1, 2, 0, 10⟩] = 2 := by
  refine ⟨?_, ?_, ?_, ?_⟩
  · norm_num [isVerticalSpecRule, rectCenter]
  · norm_num [isVerticalOf]
  · norm_num [getInsertionIndexCore, insertionTest, isVerticalOf, rectCenter,
      List.findIdx_cons, List.getLast]
  · norm_num [insertionTest, rectCenter, List.findIdx_cons]

/-- C8 amended: for two or more candidates the algorithm selects the
vertical-list interpretation exactly when the vertical span between the
first and last candidate top-left corners exceeds the horizontal span
between those corners, and the horizontal-list interpretation otherwise. -/
theorem orientation_selection (r0 r1 : Rect) (rest : List Rect) (x y : ℚ) :
    getInsertionIndexCore x y (r0 :: r1 :: rest) =
      (if isVerticalOf r0 ((r0 :: r1 :: rest).getLast (List.cons_ne_nil r0 (r1 :: rest))) then
        List.findIdx (insertionTest true x y) (r0 :: r1 :: rest)
      else
        List.findIdx (insertionTest false x y) (r0 :: r1 :: rest)) := by
  simp only [getInsertionIndexCore]
  cases h : isVerticalOf r0 ((r0 :: r1 :: rest).getLast (List.cons_ne_nil r0 (r1 :: rest))) <;>
    simp

/-- C7 counterexample: a single candidate whose center x is 10 with the
cursor at x = 20 past it: `getInsertionIndex` returns 1, not 0. -/
theorem singleCandidate_counterexample :
    getInsertionIndex 20 0 [(0, ⟨0, 0, 20, 0⟩)] none = 1 ∧
    getInsertionIndex 20 0 [(0, ⟨0, 0, 20, 0⟩)] none ≠ 0 := by
  have h : getInsertionIndex 20 0 [(0, ⟨0, 0, 20, 0⟩)] none = 1 := by
    have hfil : (([(0, (⟨0, 0, 20, 0⟩ : Rect))] : List (Elem × Rect)).filter
        (fun it => some it.1 ≠ (none : Option Elem))).map Prod.snd =
        [(⟨0, 0, 20, 0⟩ : Rect)] := rfl
    simp only [getInsertionIndex]
    rw [hfil]
    norm_num [getInsertionIndexCore, insertionTest, isVerticalOf,
      rectCenter, List.findIdx_cons, List.getLast]
  exact ⟨h, by rw [h]; exact one_ne_zero⟩

/-- C7 amended: with zero candidates after the exclusion filter the index is
0 regardless of cursor position and orientation; with exactly one candidate
the list counts as horizontal and the index is 0 when the cursor x is left
of the candidate center and 1 otherwise. -/
theorem fewCandidates_index (x y : ℚ) (allItems : List (Elem × Rect)) (ex : Option Elem) :
    ((allItems.filter (fun it => some it.1 ≠ ex)).map Prod.snd = [] →
      getInsertionIndex x y allItems ex = 0) ∧
    (∀ r, (allItems.filter (fun it => some it.1 ≠ ex)).map Prod.snd = [r] →
      getInsertionIndex x y allItems ex = if x < (rectCenter r).x then 0 else 1) := by
  constructor
  · intro h
    simp only [getInsertionIndex]
    rw [h]
    rfl
  · intro r h
    simp only [getInsertionIndex]
    rw [h]
    have hv : isVerticalOf r r = false := by simp [isVerticalOf]
    simp only [getInsertionIndexCore, List.getLast_singleton, hv]
    by_cases hx : x < (rectCenter r).x <;>
      simp [insertionTest, List.findIdx_cons, hx]

/-- Witness for C7 (amended): a filtered-out single item and a genuine
single candidate at a concrete cursor. -/
theorem fewCandidates_index_witness :
    getInsertionIndex 3 99 [(5, ⟨0, 0, 20, 0⟩)] (some 5) = 0 ∧
    getInsertionIndex 3 99 [(5, ⟨0, 0, 20, 0⟩), (6, ⟨0, 0, 20, 0⟩)] (some 5) =
      if (3 : ℚ) < (rectCenter ⟨0, 0, 20, 0⟩).x then 0 else 1 :=
  ⟨(fewCandidates_index 3 99 [(5, ⟨0, 0, 20, 0⟩)] (some 5)).1 rfl,
   (fewCandidates_index 3 99 [(5, ⟨0, 0, 20, 0⟩), (6, ⟨0, 0, 20, 0⟩)] (some 5)).2
     ⟨0, 0, 20, 0⟩ rfl⟩

/-- C4: for a vertical candidate list whose y-centers strictly increase, a
cursor strictly between centers i-1 and i yields insertion index i (for
i = 0 read: below the first center yields 0), and a cursor past the last
center yields N. -/
theorem insertionIndex_monotone (items : List Rect) (x y : ℚ) (hne : items ≠ [])
    (hvert : isVerticalOf (items.head hne) (items.getLast hne) = true)
    (hmono : ∀ i j : Fin items.length, i < j →
      (rectCenter (items.get i)).y < (rectCenter (items.get j)).y) :
    (∀ i : ℕ, ∀ hi : i < items.length,
      (0 < i → (rectCenter (items.get ⟨i - 1, by omega⟩)).y < y) →
      y < (rectCenter (items.get ⟨i, hi⟩)).y →
      getInsertionIndexCore x y items = i) ∧
    (y < (rectCenter (items.get ⟨0, List.length_pos.mpr hne⟩)).y →
      getInsertionIndexCore x y items = 0) ∧
    ((rectCenter (items.getLast hne)).y < y →
      getInsertionIndexCore x y items = items.length) := by
  cases items with
  | nil => exact absurd rfl hne
  | cons r0 rest =>
    have hvert0 : isVerticalOf r0 ((r0 :: rest).getLast (List.cons_ne_nil r0 rest)) = true :=
      hvert
    have hpred : ∀ r, insertionTest
        (isVerticalOf r0 ((r0 :: rest).getLast (List.cons_ne_nil r0 rest))) x y r =
        decide (y < (rectCenter r).y) := by
      intro r
      simp [insertionTest, hvert0]
    have hcore : getInsertionIndexCore x y (r0 :: rest) =
        (r0 :: rest).findIdx (insertionTest
          (isVerticalOf r0 ((r0 :: rest).getLast (List.cons_ne_nil r0 rest))) x y) := rfl
    have key : ∀ i : ℕ, ∀ hi : i < (r0 :: rest).length,
        (∀ j : ℕ, ∀ hj : j < i,
          (rectCenter ((r0 :: rest).get ⟨j, Nat.lt_trans hj hi⟩)).y < y) →
        y < (rectCenter ((r0 :: rest).get ⟨i, hi⟩)).y →
        getInsertionIndexCore x y (r0 :: rest) = i := by
      intro i hi hbelow habove
      rw [hcore]
      refine (List.findIdx_eq hi).mpr ⟨?_, ?_⟩
      · rw [hpred]
        simpa using habove
      · intro j hj
        rw [hpred]
        simpa using not_lt.mpr (le_of_lt (hbelow j hj))
    refine ⟨?_, ?_, ?_⟩
    · intro i hi hprev hnext
      refine key i hi (fun j hj => ?_) hnext
      have h0i : 0 < i := Nat.lt_of_le_of_lt (Nat.zero_le j) hj
      have hlast := hprev h0i
      rcases Nat.lt_or_ge j (i - 1) with hlt | hge
      · exact lt_trans
          (hmono ⟨j, Nat.lt_trans hj hi⟩ ⟨i - 1, by omega⟩ (by simpa using hlt)) hlast
      · have hj1 : j = i - 1 := by omega
        subst hj1
        exact hlast
    · intro h0
      exact key 0 (Nat.succ_pos rest.length)
        (fun j hj => absurd hj (Nat.not_lt_zero j)) h0
    · intro hlast
      rw [hcore]
      refine List.findIdx_eq_length_of_false ?_
      intro r hr
      rw [hpred]
      rcases List.mem_iff_get.mp hr with ⟨k, rfl⟩
      have hlen1 : (r0 :: rest).length - 1 < (r0 :: rest).length := by
        simp
      have hlast1 : (rectCenter ((r0 :: rest).get
          ⟨(r0 :: rest).length - 1, hlen1⟩)).y < y := by
        rw [List.getLast_eq_getElem] at hlast
        exact hlast
      have hk : (rectCenter ((r0 :: rest).get k)).y < y := by
        rcases Nat.lt_or_ge k.val ((r0 :: rest).length - 1) with hlt | hge
        · exact lt_trans
            (hmono k ⟨(r0 :: rest).length - 1, hlen1⟩ (by simpa using hlt)) hlast1
        · have hkval : k.val = (r0 :: rest).length - 1 := by omega
          have hkeq : k = ⟨(r0 :: rest).length - 1, hlen1⟩ := Fin.ext hkval
          rw [hkeq]
          exact hlast1
      simpa using not_lt.mpr (le_of_lt hk)

/-- Witness for C4: cursor y = 45 gives index 1, y = 5 gives 0, y = 95
gives 3. -/
theorem insertionIndex_monotone_witness :
    getInsertionIndexCore 0 45 exItems = 1 ∧
    getInsertionIndexCore 0 5 exItems = 0 ∧
    getInsertionIndexCore 0 95 exItems = 3 := by
  have hne : exItems ≠ [] := by simp [exItems]
  have hvert : isVerticalOf (exItems.head hne) (exItems.getLast hne) = true := by
    norm_num [exItems, isVerticalOf, List.getLast]
  have hmono : ∀ i j : Fin exItems.length, i < j →
      (rectCenter (exItems.get i)).y < (rectCenter (exItems.get j)).y := by
    intro i j hij
    fin_cases i <;> fin_cases j <;>
      first
        | exact absurd hij (by decide)
        | norm_num [exItems, rectCenter]
  refine ⟨?_, ?_, ?_⟩
  · exact (insertionIndex_monotone exItems 0 45 hne hvert hmono).1 1
      (by norm_num [exItems])
      (fun _ => by norm_num [exItems, rectCenter])
      (by norm_num [exItems, rectCenter])
  · exact (insertionIndex_monotone exItems 0 5 hne hvert hmono).2.1
      (by norm_num [exItems, rectCenter])
  · exact (insertionIndex_monotone exItems 0 95 hne hvert hmono).2.2
      (by norm_num [exItems, rectCenter, List.getLast])

end Snap
